import Mathlib

/-!
Shallow embedding of the music-module repository (src/Track.ts,
src/Subscription.ts, src/functions/durationWrapper.ts).

The `MusicSubscription` class owns one audio player and one track queue.
We model the player by its status together with the resource it currently
holds, the subscription by its queue, its `queueLock` flag and the player
fields, and each method (`enqueue`, `stop`, `processQueue`, the
`audioPlayer` stateChange handler, the `voiceConnection` stateChange
handler branches) as a pure function.  Asynchronous waits
(`entersState(..., timeout)`, `wait(ms)`) are modelled by passing in the
time at which the awaited status is observed (`Option Nat`, `none` when it
never is) and by returning the scheduled wait in milliseconds.
-/

namespace MusicModule

/-- `AudioPlayerStatus` from discord.js voice, as used by Subscription.ts. -/
inductive AudioPlayerStatus
  | Idle
  | Buffering
  | Playing
  | Paused
  | AutoPaused
  deriving DecidableEq, Repr

/-- An `AudioResource<TrackMetadata>`: the metadata object built by
`Track.create` carries `reference` (the caller's opaque request context,
modelled as a `Nat`) and `details` (`TrackMetadataDetails`, modelled as an
opaque `Nat` identifier).  `playable` records whether
`audioPlayer.play(resource)` accepts the resource (`false` means `play`
throws, the hand-off failure of Subscription.ts line 184). -/
structure AudioResource where
  reference : Nat
  details : Nat
  playable : Bool
  deriving DecidableEq, Repr

/-- The `Track` class (Track.ts lines 26-135): a query string, an optional
resolved url, the caller's request context `reference`, and the
`audioResource` field (`AudioResource | undefined`).  `Track.create` always
fills `audioResource` with metadata whose `reference` equals the track's
`reference`. -/
structure Track where
  query : String
  url : Option String
  reference : Nat
  audioResource : Option AudioResource
  deriving DecidableEq, Repr

/-- The player's state object: its status and the resource it holds
(`state.resource` is present in the non-idle states). -/
structure AudioPlayerState where
  status : AudioPlayerStatus
  resource : Option AudioResource
  deriving DecidableEq, Repr

/-- The notifications `MusicSubscription` emits (`this.emit(...)` calls).
Payloads are the `metadata.reference` / `metadata.details` fields read off
the resource; they are `Option`s because the source reads them through a
possibly-absent resource (`nextTrack.audioResource?.metadata.reference`). -/
inductive SessionEvent
  | songStarted (reference : Option Nat) (details : Option Nat)
  | songEnded (reference : Option Nat) (details : Option Nat)
  | playingError (reference : Option Nat)
  | criticalError (reference : Option Nat)
  deriving DecidableEq, Repr

/-- The mutable state of a `MusicSubscription` (Subscription.ts lines
22-33) relevant to the queue claims: the track queue, the `queueLock`
flag, and the owned audio player's status and held resource.  (The
`readyLock` flag only interacts with the voice-connection handler and is
threaded through `handleConnectingOrSignalling` explicitly.) -/
structure MusicSubscription where
  queue : List Track
  queueLock : Bool
  playerStatus : AudioPlayerStatus
  playerResource : Option AudioResource
  deriving DecidableEq, Repr

/-- The state built by the constructor: empty queue, unlocked, fresh idle
player (Subscription.ts lines 29-33). -/
def initialState : MusicSubscription :=
  { queue := [], queueLock := false, playerStatus := .Idle, playerResource := none }

/-- The state every call of `stop` leaves behind (Subscription.ts lines
156-160): queue cleared, `queueLock` set, player forced to idle. -/
def stoppedState : MusicSubscription :=
  { queue := [], queueLock := true, playerStatus := .Idle, playerResource := none }

/-- The `audioPlayer.on('stateChange', ...)` handler (Subscription.ts lines
106-130): on a transition to `Idle` from a non-idle state it emits
`songEnded` with the old resource's metadata and invokes `processQueue`
(the returned `Bool` records that invocation); otherwise, if the new
status is `Playing`, it emits `songStarted` with the new resource's
metadata. -/
def audioPlayerStateChange (oldState newState : AudioPlayerState) :
    List SessionEvent × Bool :=
  if newState.status = .Idle ∧ oldState.status ≠ .Idle then
    ([.songEnded (oldState.resource.map (·.reference))
        (oldState.resource.map (·.details))], true)
  else if newState.status = .Playing then
    ([.songStarted (newState.resource.map (·.reference))
        (newState.resource.map (·.details))], false)
  else
    ([], false)

/-- `processQueue` (Subscription.ts lines 165-194).  Returns the new
subscription state, the events emitted (only `playingError`s arise here),
and the resource handed to `audioPlayer.play` when a hand-off succeeded
(`play` puts the player into `Buffering` with that resource; the
`Buffering → Playing` notification is delivered asynchronously by the
player, see `step`).  On a failed hand-off (`play` throws: the resource is
absent or unplayable) it emits `playingError` with
`nextTrack.audioResource?.metadata.reference`, clears the lock and
recurses on the rest of the queue. -/
def processQueue (s : MusicSubscription) :
    MusicSubscription × List SessionEvent × Option AudioResource :=
  if s.queueLock = true ∨ s.playerStatus ≠ .Idle ∨ s.queue = [] then
    (s, [], none)
  else
    match h : s.queue with
    | [] => (s, [], none)
    | nextTrack :: rest =>
      match nextTrack.audioResource with
      | some r =>
        if r.playable then
          ({ queue := rest, queueLock := false, playerStatus := .Buffering,
             playerResource := some r }, [], some r)
        else
          let res := processQueue { s with queue := rest, queueLock := false }
          (res.1, .playingError (some r.reference) :: res.2.1, res.2.2)
      | none =>
        let res := processQueue { s with queue := rest, queueLock := false }
        (res.1, .playingError none :: res.2.1, res.2.2)
termination_by s.queue.length
decreasing_by
  all_goals simp only [h, List.length_cons]; omega

/-- `enqueue` (Subscription.ts lines 148-151): push the track on the tail,
then run `processQueue`. -/
def enqueue (s : MusicSubscription) (track : Track) :
    MusicSubscription × List SessionEvent × Option AudioResource :=
  processQueue { s with queue := s.queue ++ [track] }

/-- `stop` (Subscription.ts lines 156-160): set `queueLock`, clear the
queue, then `audioPlayer.stop(true)`, which forces the player to `Idle`;
if the player was not already idle this forced transition fires the
`stateChange` handler (emitting `songEnded` and invoking `processQueue`,
which is now a no-op because the lock is set). -/
def stop (s : MusicSubscription) :
    MusicSubscription × List SessionEvent × Option AudioResource :=
  if s.playerStatus = .Idle then
    (stoppedState, [], none)
  else
    let r := audioPlayerStateChange ⟨s.playerStatus, s.playerResource⟩ ⟨.Idle, none⟩
    if r.2 then
      let q := processQueue stoppedState
      (q.1, r.1 ++ q.2.1, q.2.2)
    else
      (stoppedState, r.1, none)

/-- External stimuli driving one subscription: a caller's `enqueue`, the
player's asynchronous `Buffering → Playing` transition, the playing
resource ending (player transitions to `Idle`), and a caller's `stop`. -/
inductive Stimulus
  | enqueue (track : Track)
  | playerStarts
  | trackFinishes
  | stop
  deriving DecidableEq, Repr

/-- One stimulus processed by the subscription.  The player transitions
(`playerStarts`, `trackFinishes`) are delivered to the registered
`audioPlayerStateChange` handler exactly as the source wires it. -/
def step (s : MusicSubscription) :
    Stimulus → MusicSubscription × List SessionEvent × Option AudioResource
  | .enqueue t => enqueue s t
  | .playerStarts =>
    if s.playerStatus = .Buffering then
      -- Buffering → Playing: the handler emits songStarted and does not
      -- invoke processQueue (its Idle branch is not taken).
      let r := audioPlayerStateChange ⟨s.playerStatus, s.playerResource⟩
        ⟨.Playing, s.playerResource⟩
      ({ s with playerStatus := .Playing }, r.1, none)
    else (s, [], none)
  | .trackFinishes =>
    if s.playerStatus = .Idle then (s, [], none)
    else
      let r := audioPlayerStateChange ⟨s.playerStatus, s.playerResource⟩ ⟨.Idle, none⟩
      let s1 : MusicSubscription := { s with playerStatus := .Idle, playerResource := none }
      if r.2 then
        let q := processQueue s1
        (q.1, r.1 ++ q.2.1, q.2.2)
      else (s1, r.1, none)
  | .stop => stop s

/-- A run of the subscription over a stimulus list, accumulating emitted
events and the resources handed to the player, in order. -/
def run (s : MusicSubscription) :
    List Stimulus → MusicSubscription × List SessionEvent × List AudioResource
  | [] => (s, [], [])
  | stim :: σ =>
    let r1 := step s stim
    let r2 := run r1.1 σ
    (r2.1, r1.2.1 ++ r2.2.1, r1.2.2.toList ++ r2.2.2)

/-- A track whose hand-off succeeds: it has a resource and the player
accepts it (as every track built by `Track.create` that streams cleanly). -/
def goodTrack (t : Track) : Bool :=
  match t.audioResource with
  | some r => r.playable
  | none => false

/-- The resources of the tracks waiting in the queue, in queue order. -/
def queueResources (s : MusicSubscription) : List AudioResource :=
  s.queue.filterMap (·.audioResource)

/-- The resources of the tracks enqueued by a stimulus list, in enqueue
order. -/
def enqueuedResources : List Stimulus → List AudioResource
  | [] => []
  | .enqueue t :: σ => t.audioResource.toList ++ enqueuedResources σ
  | _ :: σ => enqueuedResources σ

/-- Every track enqueued by the stimulus list is good (no hand-off
failures). -/
def allEnqueuedGood : List Stimulus → Bool
  | [] => true
  | .enqueue t :: σ => goodTrack t && allEnqueuedGood σ
  | _ :: σ => allEnqueuedGood σ

/-- The stimulus list contains no `stop` call. -/
def noStopIn : List Stimulus → Bool
  | [] => true
  | .stop :: _ => false
  | _ :: σ => noStopIn σ

/-- The stimulus list contains no `enqueue` call. -/
def noEnqueueIn : List Stimulus → Bool
  | [] => true
  | .enqueue _ :: _ => false
  | _ :: σ => noEnqueueIn σ

/-- Invariant maintained while only good tracks are enqueued and `stop` is
never called: the lock is free, every waiting track is good, and the
queue can only be non-empty while the player is busy (a drain ran after
every event). -/
def fifoInv (s : MusicSubscription) : Prop :=
  s.queueLock = false ∧ (∀ t ∈ s.queue, goodTrack t = true) ∧
    (s.playerStatus = .Idle → s.queue = [])

/-- `VoiceConnectionStatus` from discord.js voice. -/
inductive VoiceConnectionStatus
  | Signalling
  | Connecting
  | Ready
  | Disconnected
  | Destroyed
  deriving DecidableEq, Repr

/-- The operations the supervisor can invoke on the voice connection. -/
inductive VoiceAction
  | destroy
  | rejoin
  deriving DecidableEq, Repr

/-- `entersState(connection, status, timeoutMs)` resolves exactly when the
awaited status is observed within the timeout.  `observedAt` is the time
in milliseconds at which the status is first reported after the wait
begins, `none` when it never is. -/
def entersWithin (observedAt : Option Nat) (timeoutMs : Nat) : Bool :=
  match observedAt with
  | some t => t ≤ timeoutMs
  | none => false

/-- The `Disconnected` branch of the `voiceConnection` stateChange handler
(Subscription.ts lines 36-70).  `wsClose` is whether
`newState.reason === WebSocketClose`, `closeCode` is `newState.closeCode`,
`rejoinAttempts` the connection's rejoin-attempt counter, and
`connectingObservedAt` the time at which the connection next reports
`Connecting` (for the `entersState(..., Connecting, 5_000)` wait).
Returns the scheduled wait in milliseconds before the issued actions. -/
def handleDisconnected (wsClose : Bool) (closeCode : Nat) (rejoinAttempts : Nat)
    (connectingObservedAt : Option Nat) : Nat × List VoiceAction :=
  if wsClose = true ∧ closeCode = 4014 then
    if entersWithin connectingObservedAt 5000 then
      (0, [])  -- probably moved voice channel: no action
    else
      (0, [.destroy])  -- probably removed from voice channel
  else if rejoinAttempts < 5 then
    ((rejoinAttempts + 1) * 5000, [.rejoin])
  else
    (0, [.destroy])

/-- The `Connecting`/`Signalling` branch of the `voiceConnection`
stateChange handler (Subscription.ts lines 76-102).  Takes the current
`readyLock`, the new status, the time at which `Ready` is next observed
(for the `entersState(..., Ready, 20_000)` wait) and the connection's
status when that wait times out.  Returns whether a 20-second bound was
started, the `readyLock` after the handler finishes (the `finally` clause
releases it), and the issued actions. -/
def handleConnectingOrSignalling (readyLock : Bool)
    (newStatus : VoiceConnectionStatus) (readyObservedAt : Option Nat)
    (statusAtTimeout : VoiceConnectionStatus) :
    Bool × Bool × List VoiceAction :=
  if readyLock = false ∧
      (newStatus = .Connecting ∨ newStatus = .Signalling) then
    if entersWithin readyObservedAt 20000 then
      (true, false, [])
    else if statusAtTimeout = .Destroyed then
      (true, false, [])
    else
      (true, false, [.destroy])
  else
    (false, readyLock, [])

/-- `WrappedDuration` (functions/durationWrapper.ts lines 1-6).
`decimalMinutes` is a JS float in the source; it is modelled as a rational
and is not the subject of any claim. -/
structure WrappedDuration where
  decimalMinutes : ℚ
  flatMinutes : Nat
  seconds : Nat
  timestamp : String
  deriving DecidableEq, Repr

/-- `durationWrapper` (functions/durationWrapper.ts lines 8-15), on
nonnegative integer second counts (where JS `Math.floor(seconds / 60)`
and the subtraction coincide with `Nat` division and subtraction). -/
def durationWrapper (seconds : Nat) : WrappedDuration :=
  let minutes : Nat := seconds / 60
  let secondsLeft : Nat := seconds - minutes * 60
  { decimalMinutes := (seconds : ℚ) / 60
    flatMinutes := minutes
    seconds := secondsLeft
    timestamp := toString minutes ++ ":" ++ toString secondsLeft }

/-- A concrete playable resource used by witnesses. -/
def exResource1 : AudioResource := { reference := 1, details := 101, playable := true }

/-- A second concrete playable resource used by witnesses. -/
def exResource2 : AudioResource := { reference := 2, details := 102, playable := true }

/-- A concrete unplayable resource used by witnesses. -/
def exResourceBad : AudioResource := { reference := 3, details := 103, playable := false }

/-- A concrete good track used by witnesses. -/
def exTrack1 : Track :=
  { query := "song one", url := some "https://example.test/1", reference := 1,
    audioResource := some exResource1 }

/-- A second concrete good track used by witnesses. -/
def exTrack2 : Track :=
  { query := "song two", url := some "https://example.test/2", reference := 2,
    audioResource := some exResource2 }

/-- A concrete track whose hand-off fails, used by witnesses. -/
def exTrackBad : Track :=
  { query := "song three", url := some "https://example.test/3", reference := 3,
    audioResource := some exResourceBad }

/-! ### Basic lemmas about `processQueue` -/

/-- The guard (Subscription.ts lines 167-173): locked, non-idle player or
empty queue means an immediate no-op. -/
theorem processQueue_noop (s : MusicSubscription)
    (h : s.queueLock = true ∨ s.playerStatus ≠ .Idle ∨ s.queue = []) :
    processQueue s = (s, [], none) := by
  unfold processQueue
  simp [h]

/-- Successful hand-off: the head is popped, its resource handed to the
player (which enters `Buffering` holding it), and the lock ends clear. -/
theorem processQueue_cons_good (s : MusicSubscription) (t : Track)
    (rest : List Track) (r : AudioResource)
    (hlock : s.queueLock = false) (hidle : s.playerStatus = .Idle)
    (hq : s.queue = t :: rest) (hres : t.audioResource = some r)
    (hplay : r.playable = true) :
    processQueue s =
      ({ queue := rest, queueLock := false, playerStatus := .Buffering,
         playerResource := some r }, [], some r) := by
  unfold processQueue
  simp only [hlock, hidle, hq]
  rw [if_neg (by simp)]
  split
  · rename_i heq
    rw [hq] at heq
    exact absurd heq (by simp)
  · rename_i nt rs heq
    rw [hq] at heq
    injection heq with h1 h2
    subst h1; subst h2
    simp [hres, hplay]

/-- Failed hand-off with a resource present: emit `playingError` with the
resource's request context, clear the lock and retry on the tail. -/
theorem processQueue_cons_bad (s : MusicSubscription) (t : Track)
    (rest : List Track) (r : AudioResource)
    (hlock : s.queueLock = false) (hidle : s.playerStatus = .Idle)
    (hq : s.queue = t :: rest) (hres : t.audioResource = some r)
    (hplay : r.playable = false) :
    processQueue s =
      ((processQueue { s with queue := rest, queueLock := false }).1,
        .playingError (some r.reference) ::
          (processQueue { s with queue := rest, queueLock := false }).2.1,
        (processQueue { s with queue := rest, queueLock := false }).2.2) := by
  conv_lhs => unfold processQueue
  simp only [hlock, hidle, hq]
  rw [if_neg (by simp)]
  split
  · rename_i heq
    rw [hq] at heq
    exact absurd heq (by simp)
  · rename_i nt rs heq
    rw [hq] at heq
    injection heq with h1 h2
    subst h1; subst h2
    simp [hres, hplay]

/-- Failed hand-off with the resource absent: `play(undefined)` throws and
the emitted `playingError` carries no request context. -/
theorem processQueue_cons_none (s : MusicSubscription) (t : Track)
    (rest : List Track)
    (hlock : s.queueLock = false) (hidle : s.playerStatus = .Idle)
    (hq : s.queue = t :: rest) (hres : t.audioResource = none) :
    processQueue s =
      ((processQueue { s with queue := rest, queueLock := false }).1,
        .playingError none ::
          (processQueue { s with queue := rest, queueLock := false }).2.1,
        (processQueue { s with queue := rest, queueLock := false }).2.2) := by
  conv_lhs => unfold processQueue
  simp only [hlock, hidle, hq]
  rw [if_neg (by simp)]
  split
  · rename_i heq
    rw [hq] at heq
    exact absurd heq (by simp)
  · rename_i nt rs heq
    rw [hq] at heq
    injection heq with h1 h2
    subst h1; subst h2
    simp [hres]

/-- `processQueue` only ever removes tracks from the front of the queue:
the resulting queue is a suffix of the starting one (no item, failed or
not, re-enters the queue). -/
theorem processQueue_queue_suffix (s : MusicSubscription) :
    (processQueue s).1.queue <:+ s.queue := by
  induction s using processQueue.induct with
  | case1 s h =>
    rw [processQueue_noop s h]
  | case2 s h heq =>
    rw [processQueue_noop s (Or.inr (Or.inr heq))]
  | case3 s h nt rest heq r hres hplay =>
    push_neg at h
    rw [processQueue_cons_good s nt rest r (by simpa using h.1) h.2.1 heq hres hplay]
    rw [heq]
    exact List.suffix_cons nt rest
  | case4 s h nt rest heq r hres hplay ih =>
    push_neg at h
    rw [processQueue_cons_bad s nt rest r (by simpa using h.1) h.2.1 heq hres
      (by simpa using hplay)]
    rw [heq]
    exact ih.trans (List.suffix_cons nt rest)
  | case5 s h nt rest heq hres ih =>
    push_neg at h
    rw [processQueue_cons_none s nt rest (by simpa using h.1) h.2.1 heq hres]
    rw [heq]
    exact ih.trans (List.suffix_cons nt rest)

/-- Queue-length accounting for one `processQueue` call: every removed
track is accounted for either by a `playingError` event or by the single
successful hand-off — so the queue shrinks by exactly one per failure
(plus one for a final success). -/
theorem processQueue_length (s : MusicSubscription) :
    s.queue.length =
      (processQueue s).1.queue.length + (processQueue s).2.1.length +
        (processQueue s).2.2.toList.length := by
  induction s using processQueue.induct with
  | case1 s h =>
    rw [processQueue_noop s h]; simp
  | case2 s h heq =>
    rw [processQueue_noop s (Or.inr (Or.inr heq))]; simp
  | case3 s h nt rest heq r hres hplay =>
    push_neg at h
    rw [processQueue_cons_good s nt rest r (by simpa using h.1) h.2.1 heq hres hplay]
    simp [heq]
  | case4 s h nt rest heq r hres hplay ih =>
    push_neg at h
    rw [processQueue_cons_bad s nt rest r (by simpa using h.1) h.2.1 heq hres
      (by simpa using hplay)]
    simp only [heq, List.length_cons] at ih ⊢
    omega
  | case5 s h nt rest heq hres ih =>
    push_neg at h
    rw [processQueue_cons_none s nt rest (by simpa using h.1) h.2.1 heq hres]
    simp only [heq, List.length_cons] at ih ⊢
    omega

/-- Unfolding of `goodTrack`. -/
theorem goodTrack_spec (t : Track) :
    goodTrack t = true ↔ ∃ r, t.audioResource = some r ∧ r.playable = true := by
  unfold goodTrack
  split <;> rename_i h <;> simp [h]

/-- Every `stop` call leaves the same state behind: empty queue, lock set,
idle player. -/
theorem stop_fst (s : MusicSubscription) : (stop s).1 = stoppedState := by
  unfold stop
  split
  · rfl
  · rename_i hne
    have hh : audioPlayerStateChange ⟨s.playerStatus, s.playerResource⟩ ⟨.Idle, none⟩ =
        ([.songEnded (s.playerResource.map (·.reference))
            (s.playerResource.map (·.details))], true) := by
      unfold audioPlayerStateChange
      rw [if_pos ⟨rfl, hne⟩]
    rw [hh]
    simp [processQueue_noop stoppedState (Or.inl rfl)]

/-- Once the lock is set with an idle player, every stimulus leaves the
lock set and the player idle, emits nothing, and hands nothing over. -/
theorem step_halted (s : MusicSubscription) (stim : Stimulus)
    (hl : s.queueLock = true) (hi : s.playerStatus = .Idle) :
    (step s stim).1.queueLock = true ∧ (step s stim).1.playerStatus = .Idle ∧
      (step s stim).2.1 = [] ∧ (step s stim).2.2 = none := by
  cases stim with
  | enqueue t =>
    simp only [step, enqueue]
    rw [processQueue_noop { s with queue := s.queue ++ [t] } (Or.inl hl)]
    exact ⟨hl, hi, rfl, rfl⟩
  | playerStarts =>
    simp only [step]
    rw [if_neg (by rw [hi]; decide)]
    exact ⟨hl, hi, rfl, rfl⟩
  | trackFinishes =>
    simp only [step]
    rw [if_pos hi]
    exact ⟨hl, hi, rfl, rfl⟩
  | stop =>
    simp only [step]
    rw [show MusicModule.stop s = (stoppedState, [], none) by unfold stop; rw [if_pos hi]]
    exact ⟨rfl, rfl, rfl, rfl⟩

/-- A run from a locked idle state emits nothing and hands nothing over,
and stays locked and idle. -/
theorem run_halted (σ : List Stimulus) :
    ∀ s : MusicSubscription, s.queueLock = true → s.playerStatus = .Idle →
      (run s σ).2.1 = [] ∧ (run s σ).2.2 = [] ∧
        (run s σ).1.queueLock = true ∧ (run s σ).1.playerStatus = .Idle := by
  induction σ with
  | nil => intro s hl hi; exact ⟨rfl, rfl, hl, hi⟩
  | cons stim σ ih =>
    intro s hl hi
    obtain ⟨h1, h2, h3, h4⟩ := step_halted s stim hl hi
    obtain ⟨g1, g2, g3, g4⟩ := ih (step s stim).1 h1 h2
    simp only [run]
    exact ⟨by rw [h3, g1]; rfl, by rw [h4, g2]; rfl, g3, g4⟩

/-- In the stopped state every stimulus other than an `enqueue` is a
complete no-op. -/
theorem run_stopped_noEnqueue (σ : List Stimulus) (hσ : noEnqueueIn σ = true) :
    run stoppedState σ = (stoppedState, [], []) := by
  induction σ with
  | nil => rfl
  | cons stim σ ih =>
    have hstep : step stoppedState stim = (stoppedState, [], none) := by
      cases stim with
      | enqueue t => exact absurd hσ (by simp [noEnqueueIn])
      | playerStarts => rfl
      | trackFinishes => rfl
      | stop => rfl
    have hσ' : noEnqueueIn σ = true := by
      cases stim with
      | enqueue t => exact absurd hσ (by simp [noEnqueueIn])
      | playerStarts => exact hσ
      | trackFinishes => exact hσ
      | stop => exact hσ
    simp only [run, hstep, ih hσ']
    rfl

/-- Splitting the enqueued-resource accounting at the first stimulus. -/
theorem enqueuedResources_cons (stim : Stimulus) (σ : List Stimulus) :
    enqueuedResources (stim :: σ) =
      enqueuedResources [stim] ++ enqueuedResources σ := by
  cases stim <;> simp [enqueuedResources]

/-- One stimulus preserves the FIFO invariant and its hand-off accounts
exactly for the difference between enqueued and still-waiting resources. -/
theorem step_fifo (s : MusicSubscription) (stim : Stimulus)
    (hs : fifoInv s)
    (hgood : ∀ t, stim = .enqueue t → goodTrack t = true)
    (hnstop : stim ≠ .stop) :
    fifoInv (step s stim).1 ∧
      (step s stim).2.2.toList ++ queueResources (step s stim).1 =
        queueResources s ++ enqueuedResources [stim] := by
  obtain ⟨hl, hq, hio⟩ := hs
  cases stim with
  | enqueue t =>
    have hg := hgood t rfl
    obtain ⟨r, hres, hplay⟩ := (goodTrack_spec t).1 hg
    simp only [step, enqueue]
    by_cases hidle : s.playerStatus = .Idle
    · have hqe : s.queue = [] := hio hidle
      have hq1 : ({ s with queue := s.queue ++ [t] } : MusicSubscription).queue
          = t :: [] := by simp [hqe]
      rw [processQueue_cons_good { s with queue := s.queue ++ [t] }
        t [] r hl hidle hq1 hres hplay]
      refine ⟨⟨rfl, by simp, fun _ => rfl⟩, ?_⟩
      simp [queueResources, hqe, enqueuedResources, hres]
    · rw [processQueue_noop { s with queue := s.queue ++ [t] }
        (Or.inr (Or.inl hidle))]
      refine ⟨⟨hl, ?_, fun hcon => absurd hcon hidle⟩, ?_⟩
      · intro t' ht'
        rcases List.mem_append.1 ht' with h | h
        · exact hq t' h
        · simp only [List.mem_singleton] at h
          subst h; exact hg
      · simp [queueResources, List.filterMap_append, enqueuedResources, hres]
  | playerStarts =>
    simp only [step]
    by_cases hb : s.playerStatus = .Buffering
    · rw [if_pos hb]
      refine ⟨⟨hl, hq, by simp⟩, ?_⟩
      simp [queueResources, enqueuedResources]
    · rw [if_neg hb]
      exact ⟨⟨hl, hq, hio⟩, by simp [enqueuedResources]⟩
  | trackFinishes =>
    simp only [step]
    by_cases hi : s.playerStatus = .Idle
    · rw [if_pos hi]
      exact ⟨⟨hl, hq, hio⟩, by simp [enqueuedResources]⟩
    · rw [if_neg hi]
      have hh : audioPlayerStateChange ⟨s.playerStatus, s.playerResource⟩ ⟨.Idle, none⟩ =
          ([.songEnded (s.playerResource.map (·.reference))
              (s.playerResource.map (·.details))], true) := by
        unfold audioPlayerStateChange
        rw [if_pos ⟨rfl, hi⟩]
      rw [hh]
      dsimp only
      rw [if_pos rfl]
      cases hque : s.queue with
      | nil =>
        rw [processQueue_noop
          { queue := [], queueLock := s.queueLock, playerStatus := .Idle,
            playerResource := none } (Or.inr (Or.inr rfl))]
        refine ⟨⟨hl, by simp, fun _ => rfl⟩, ?_⟩
        simp [queueResources, hque, enqueuedResources]
      | cons t rest =>
        have hg := hq t (by rw [hque]; exact List.mem_cons_self t rest)
        obtain ⟨r, hres, hplay⟩ := (goodTrack_spec t).1 hg
        rw [processQueue_cons_good
          { queue := t :: rest, queueLock := s.queueLock, playerStatus := .Idle,
            playerResource := none } t rest r hl rfl rfl hres hplay]
        refine ⟨⟨rfl, ?_, by simp⟩, ?_⟩
        · intro t' ht'
          exact hq t' (by rw [hque]; exact List.mem_cons_of_mem t ht')
        · simp [queueResources, hque, hres, enqueuedResources]
  | stop => exact absurd rfl hnstop

/-- Claim C1's induction: with only good tracks enqueued and no `stop`,
a run hands resources to the player so that the handed sequence followed
by the still-queued resources is exactly the enqueue sequence. -/
theorem run_fifo (σ : List Stimulus) :
    ∀ s : MusicSubscription, fifoInv s → noStopIn σ = true →
      allEnqueuedGood σ = true →
      fifoInv (run s σ).1 ∧
        (run s σ).2.2 ++ queueResources (run s σ).1 =
          queueResources s ++ enqueuedResources σ := by
  induction σ with
  | nil =>
    intro s hs _ _
    exact ⟨hs, by simp [run, enqueuedResources]⟩
  | cons stim σ ih =>
    intro s hs hstop hgood
    have hstop1 : stim ≠ .stop := by
      intro hcon; subst hcon; exact absurd hstop (by simp [noStopIn])
    have hstop' : noStopIn σ = true := by
      cases stim with
      | enqueue t => exact hstop
      | playerStarts => exact hstop
      | trackFinishes => exact hstop
      | stop => exact absurd hstop (by simp [noStopIn])
    have hgood1 : ∀ t, stim = .enqueue t → goodTrack t = true := by
      intro t hteq; subst hteq
      simp only [allEnqueuedGood, Bool.and_eq_true] at hgood
      exact hgood.1
    have hgood' : allEnqueuedGood σ = true := by
      cases stim with
      | enqueue t =>
        simp only [allEnqueuedGood, Bool.and_eq_true] at hgood
        exact hgood.2
      | playerStarts => exact hgood
      | trackFinishes => exact hgood
      | stop => exact hgood
    obtain ⟨hinv1, heq1⟩ := step_fifo s stim hs hgood1 hstop1
    obtain ⟨hinv2, heq2⟩ := ih (step s stim).1 hinv1 hstop' hgood'
    refine ⟨hinv2, ?_⟩
    show ((step s stim).2.2.toList ++ (run (step s stim).1 σ).2.2) ++
        queueResources (run (step s stim).1 σ).1 =
      queueResources s ++ enqueuedResources (stim :: σ)
    rw [enqueuedResources_cons, List.append_assoc, heq2, ← List.append_assoc,
      heq1, List.append_assoc]

/-! ### Claim theorems -/

/-- Claim C1: for every sequence of `enqueue` calls with no intervening
hand-off failures (and no `stop`), tracks are handed to the player in
exactly their enqueue order — the handed-off sequence followed by the
still-queued resources equals the enqueued sequence, so hand-offs are a
prefix of the enqueue order with nothing reordered — and at any instant
at most one track's resource is in the player (at most one active
track). -/
theorem claim_C1_fifo_order (σ : List Stimulus)
    (h1 : noStopIn σ = true) (h2 : allEnqueuedGood σ = true) :
    (run initialState σ).2.2 ++ queueResources (run initialState σ).1 =
      enqueuedResources σ ∧
    ∀ σp : List Stimulus,
      (run initialState σp).1.playerResource.toList.length ≤ 1 := by
  have hinv : fifoInv initialState := ⟨rfl, by simp [initialState], fun _ => rfl⟩
  obtain ⟨_, heq⟩ := run_fifo σ initialState hinv h1 h2
  refine ⟨?_, ?_⟩
  · simpa [queueResources, initialState] using heq
  · intro σp
    cases hr : (run initialState σp).1.playerResource <;> simp

/-- Witness for C1: a concrete two-track run with completions, handed in
enqueue order. -/
theorem claim_C1_fifo_order_witness :
    noStopIn [Stimulus.enqueue exTrack1, .enqueue exTrack2, .playerStarts,
        .trackFinishes, .playerStarts, .trackFinishes] = true ∧
    allEnqueuedGood [Stimulus.enqueue exTrack1, .enqueue exTrack2, .playerStarts,
        .trackFinishes, .playerStarts, .trackFinishes] = true ∧
    (run initialState [Stimulus.enqueue exTrack1, .enqueue exTrack2, .playerStarts,
          .trackFinishes, .playerStarts, .trackFinishes]).2.2 ++
        queueResources (run initialState [Stimulus.enqueue exTrack1, .enqueue exTrack2,
          .playerStarts, .trackFinishes, .playerStarts, .trackFinishes]).1 =
      enqueuedResources [Stimulus.enqueue exTrack1, .enqueue exTrack2, .playerStarts,
        .trackFinishes, .playerStarts, .trackFinishes] :=
  ⟨by decide, by decide,
    (claim_C1_fifo_order _ (by decide) (by decide)).1⟩

/-- Claim C2: `processQueue` is a no-op returning immediately with all
session state unchanged iff the lock is set, the player is not idle, or
the queue is empty; in every other state with a playable head it removes
exactly the head, hands its resource to the player, and ends with the
lock clear. -/
theorem claim_C2_processQueue_guard (s : MusicSubscription) :
    (processQueue s = (s, [], none) ↔
      (s.queueLock = true ∨ s.playerStatus ≠ .Idle ∨ s.queue = [])) ∧
    (∀ t rest r, s.queueLock = false → s.playerStatus = .Idle →
      s.queue = t :: rest → t.audioResource = some r → r.playable = true →
      processQueue s =
        ({ queue := rest, queueLock := false, playerStatus := .Buffering,
           playerResource := some r }, [], some r)) := by
  constructor
  · constructor
    · intro hnoop
      by_contra hguard
      push_neg at hguard
      obtain ⟨hl, hi, hne⟩ := hguard
      have hl' : s.queueLock = false := by simpa using hl
      obtain ⟨t, rest, hqe⟩ := List.exists_cons_of_ne_nil hne
      cases hres : t.audioResource with
      | some r =>
        cases hplay : r.playable with
        | true =>
          rw [processQueue_cons_good s t rest r hl' hi hqe hres hplay] at hnoop
          simp at hnoop
        | false =>
          rw [processQueue_cons_bad s t rest r hl' hi hqe hres hplay] at hnoop
          simp at hnoop
      | none =>
        rw [processQueue_cons_none s t rest hl' hi hqe hres] at hnoop
        simp at hnoop
    · exact processQueue_noop s
  · intro t rest r hl hi hqe hres hplay
    exact processQueue_cons_good s t rest r hl hi hqe hres hplay

/-- Witness for C2: a one-track unlocked idle session hands the head's
resource to the player and ends unlocked. -/
theorem claim_C2_processQueue_guard_witness :
    ({ queue := [exTrack1], queueLock := false, playerStatus := .Idle,
        playerResource := none } : MusicSubscription).queueLock = false ∧
    processQueue { queue := [exTrack1], queueLock := false, playerStatus := .Idle, playerResource := none } =
      ({ queue := [], queueLock := false, playerStatus := .Buffering,
          playerResource := some exResource1 }, [], some exResource1) :=
  ⟨rfl, (claim_C2_processQueue_guard
      { queue := [exTrack1], queueLock := false, playerStatus := .Idle,
        playerResource := none }).2 exTrack1 [] exResource1 rfl rfl rfl rfl rfl⟩

/-- Claim C3: a failed hand-off for the head item emits `playingError`
carrying that item's original request context, clears the flag and
immediately retries the drain with the rest of the queue; moreover every
removed item is accounted for by exactly one `playingError` or the single
final hand-off (the queue shrinks by exactly one per failure), and the
resulting queue is a suffix of the remaining tail (the failed item never
re-enters the queue). -/
theorem claim_C3_failure_skips (s : MusicSubscription) (t : Track)
    (rest : List Track) (r : AudioResource)
    (hlock : s.queueLock = false) (hidle : s.playerStatus = .Idle)
    (hq : s.queue = t :: rest) (hres : t.audioResource = some r)
    (href : r.reference = t.reference) (hbad : r.playable = false) :
    processQueue s =
      ((processQueue { s with queue := rest, queueLock := false }).1,
        .playingError (some t.reference) ::
          (processQueue { s with queue := rest, queueLock := false }).2.1,
        (processQueue { s with queue := rest, queueLock := false }).2.2) ∧
    s.queue.length =
      (processQueue s).1.queue.length + (processQueue s).2.1.length +
        (processQueue s).2.2.toList.length ∧
    (processQueue s).1.queue <:+ rest := by
  have hb := processQueue_cons_bad s t rest r hlock hidle hq hres hbad
  refine ⟨?_, processQueue_length s, ?_⟩
  · rw [← href]
    exact hb
  · have h1 : (processQueue s).1 =
        (processQueue { s with queue := rest, queueLock := false }).1 := by
      rw [hb]
    rw [h1]
    exact processQueue_queue_suffix { s with queue := rest, queueLock := false }

/-- Witness for C3: a queue whose head fails hand-off and whose second
track succeeds; the error carries the head's request context and the
drain continues with the second track. -/
theorem claim_C3_failure_skips_witness :
    exTrackBad.audioResource = some exResourceBad ∧
    exResourceBad.playable = false ∧
    processQueue { queue := [exTrackBad, exTrack1], queueLock := false, playerStatus := .Idle, playerResource := none } =
      ((processQueue { queue := [exTrack1], queueLock := false, playerStatus := .Idle, playerResource := none }).1,
        .playingError (some exTrackBad.reference) ::
          (processQueue { queue := [exTrack1], queueLock := false, playerStatus := .Idle, playerResource := none }).2.1,
        (processQueue { queue := [exTrack1], queueLock := false, playerStatus := .Idle, playerResource := none }).2.2) :=
  ⟨rfl, rfl, (claim_C3_failure_skips
      { queue := [exTrackBad, exTrack1], queueLock := false, playerStatus := .Idle,
        playerResource := none } exTrackBad [exTrack1] exResourceBad
      rfl rfl rfl rfl rfl rfl).1⟩

/-- Counterexample to claim C4 as stated: a subsequent `enqueue` does NOT
resume playback after `stop()`.  Starting from the stopped session, a
good track is enqueued and the player stimuli are delivered, yet no
notification is emitted, no resource is ever handed to the player, the
player stays idle and the lock stays set — `stop` set `queueLock` and
nothing ever clears it. -/
theorem claim_C4_counterexample :
    goodTrack exTrack1 = true ∧
    (run (stop initialState).1
        [.enqueue exTrack1, .playerStarts, .trackFinishes]).2.1 = [] ∧
    (run (stop initialState).1
        [.enqueue exTrack1, .playerStarts, .trackFinishes]).2.2 = [] ∧
    (run (stop initialState).1
        [.enqueue exTrack1, .playerStarts, .trackFinishes]).1.playerStatus = .Idle ∧
    (run (stop initialState).1
        [.enqueue exTrack1, .playerStarts, .trackFinishes]).1.queueLock = true := by
  have hs : (stop initialState).1 = stoppedState := stop_fst initialState
  rw [hs]
  have h := run_halted [.enqueue exTrack1, .playerStarts, .trackFinishes]
    stoppedState rfl rfl
  exact ⟨by decide, h.1, h.2.1, h.2.2.2, h.2.2.1⟩

/-- Claim C4 (amended): after `stop()` the queue is empty, the player has
halted and the lock is set; and no further `songStarted`/`songEnded`
notification (indeed no notification at all) is ever emitted and no
resource is ever handed to the player, for EVERY later stimulus sequence
— in particular a subsequent enqueue does not resume playback, because
the mutual-exclusion flag set by `stop` is never cleared. -/
theorem claim_C4_stop_halts (s : MusicSubscription) (σ : List Stimulus) :
    (stop s).1.queue = [] ∧ (stop s).1.playerStatus = .Idle ∧
      (stop s).1.queueLock = true ∧
      (run (stop s).1 σ).2.1 = [] ∧ (run (stop s).1 σ).2.2 = [] := by
  rw [stop_fst s]
  have h := run_halted σ stoppedState rfl rfl
  exact ⟨rfl, rfl, rfl, h.1, h.2.1⟩

/-- Counterexample to claim C5 as stated: a state reachable after a
`stop()` call (here: `stop` followed by an `enqueue`) on which calling
`stop()` again is NOT a no-op — the second `stop` clears the track that
was enqueued after the first `stop`, changing the queue. -/
theorem claim_C5_counterexample :
    (run initialState [Stimulus.stop, .enqueue exTrack1]).1.queue = [exTrack1] ∧
    (stop (run initialState [Stimulus.stop, .enqueue exTrack1]).1).1.queue = [] ∧
    (stop (run initialState [Stimulus.stop, .enqueue exTrack1]).1).1 ≠
      (run initialState [Stimulus.stop, .enqueue exTrack1]).1 := by
  have h1 : (run initialState [Stimulus.stop, .enqueue exTrack1]).1 =
      { queue := [exTrack1], queueLock := true, playerStatus := .Idle,
        playerResource := none } := by
    show (step (step initialState .stop).1 (.enqueue exTrack1)).1 = _
    rw [show (step initialState Stimulus.stop).1 = stoppedState from
      stop_fst initialState]
    show (processQueue { queue := [exTrack1], queueLock := true, playerStatus := .Idle, playerResource := none }).1 = _
    rw [processQueue_noop { queue := [exTrack1], queueLock := true, playerStatus := .Idle, playerResource := none } (Or.inl rfl)]
  rw [h1]
  have h2 : (stop { queue := [exTrack1], queueLock := true, playerStatus := .Idle, playerResource := none }).1 = stoppedState :=
    stop_fst _
  rw [h2]
  exact ⟨rfl, rfl, by decide⟩

/-- Claim C5 (amended): session destruction is idempotent as long as no
enqueue intervenes: for every state reachable from a stopped session via
stimuli containing no `enqueue`, calling `stop()` again is a no-op — it
returns the same state, emits nothing and hands nothing to the player.
(An `enqueue` between the two `stop`s breaks this: the second `stop`
clears the newly queued track.) -/
theorem claim_C5_stop_idempotent (s : MusicSubscription)
    (σ : List Stimulus) (hσ : noEnqueueIn σ = true) :
    stop (run (stop s).1 σ).1 = ((run (stop s).1 σ).1, [], none) := by
  rw [stop_fst s, run_stopped_noEnqueue σ hσ]
  rfl

/-- Witness for C5 (amended) at a concrete stimulus list without
enqueues. -/
theorem claim_C5_stop_idempotent_witness :
    noEnqueueIn [Stimulus.playerStarts, .stop, .trackFinishes] = true ∧
    stop (run (stop initialState).1
        [Stimulus.playerStarts, .stop, .trackFinishes]).1 =
      ((run (stop initialState).1
        [Stimulus.playerStarts, .stop, .trackFinishes]).1, [], none) :=
  ⟨by decide, claim_C5_stop_idempotent initialState _ (by decide)⟩

/-- Claim C6: on a Disconnected event that is a WebSocket close with code
4014, if the connection reports Connecting again within 5000 ms no
destroy is issued (no action at all); if Connecting is not observed
within 5000 ms, destroy() is issued exactly once. -/
theorem claim_C6_code4014_policy (rejoinAttempts : Nat) (connAt : Option Nat) :
    (entersWithin connAt 5000 = true →
      handleDisconnected true 4014 rejoinAttempts connAt = (0, [])) ∧
    (entersWithin connAt 5000 = false →
      handleDisconnected true 4014 rejoinAttempts connAt = (0, [.destroy]) ∧
      (handleDisconnected true 4014 rejoinAttempts connAt).2.count .destroy = 1) := by
  constructor
  · intro h
    unfold handleDisconnected
    rw [if_pos ⟨rfl, rfl⟩, if_pos h]
  · intro h
    have heq : handleDisconnected true 4014 rejoinAttempts connAt = (0, [.destroy]) := by
      unfold handleDisconnected
      rw [if_pos ⟨rfl, rfl⟩, if_neg (by simp [h])]
    exact ⟨heq, by rw [heq]; rfl⟩

/-- Witness for C6: Connecting seen after 1000 ms means no action; never
seen means exactly one destroy. -/
theorem claim_C6_code4014_policy_witness :
    entersWithin (some 1000) 5000 = true ∧
    handleDisconnected true 4014 0 (some 1000) = (0, []) ∧
    entersWithin none 5000 = false ∧
    (handleDisconnected true 4014 0 none).2.count .destroy = 1 :=
  ⟨by decide, (claim_C6_code4014_policy 0 (some 1000)).1 (by decide), by decide,
    ((claim_C6_code4014_policy 0 none).2 (by decide)).2⟩

/-- Claim C7: for a Disconnected event that is not a 4014 WebSocket
close, a rejoin-attempt counter n < 5 gives a wait of exactly
(n + 1) × 5000 ms followed by a rejoin — 5000, 10000, 15000, 20000,
25000 ms for n = 0..4 — while a counter of 5 or more gives destroy()
instead of a rejoin. -/
theorem claim_C7_backoff_policy (wsClose : Bool) (closeCode n : Nat)
    (connAt : Option Nat) (hnot : ¬(wsClose = true ∧ closeCode = 4014)) :
    (n < 5 → handleDisconnected wsClose closeCode n connAt =
      ((n + 1) * 5000, [.rejoin])) ∧
    (5 ≤ n → handleDisconnected wsClose closeCode n connAt = (0, [.destroy])) ∧
    handleDisconnected false 0 0 none = (5000, [.rejoin]) ∧
    handleDisconnected false 0 1 none = (10000, [.rejoin]) ∧
    handleDisconnected false 0 2 none = (15000, [.rejoin]) ∧
    handleDisconnected false 0 3 none = (20000, [.rejoin]) ∧
    handleDisconnected false 0 4 none = (25000, [.rejoin]) ∧
    handleDisconnected false 0 5 none = (0, [.destroy]) := by
  refine ⟨?_, ?_, by decide, by decide, by decide, by decide, by decide, by decide⟩
  · intro h
    unfold handleDisconnected
    rw [if_neg hnot, if_pos h]
  · intro h
    unfold handleDisconnected
    rw [if_neg hnot, if_neg (by omega)]

/-- Witness for C7: a non-WebSocket-close disconnect at counter 2 waits
15000 ms then rejoins. -/
theorem claim_C7_backoff_policy_witness :
    ¬(false = true ∧ (0 : Nat) = 4014) ∧ (2 : Nat) < 5 ∧
    handleDisconnected false 0 2 none = (15000, [.rejoin]) :=
  ⟨by decide, by decide,
    (claim_C7_backoff_policy false 0 2 none (by decide)).1 (by decide)⟩

/-- Claim C8: on a transition into Connecting or Signalling with no
ready-guard active, the supervisor sets the guard and starts the
20-second bound; if Ready is observed within the bound, no destroy and
the guard is released; if the bound expires and the connection is not
already Destroyed, destroy is issued and the guard released; if it is
already Destroyed, no destroy; and while the guard is active a repeated
Connecting/Signalling transition starts no additional bound and issues
nothing. -/
theorem claim_C8_ready_guard (readyLock : Bool)
    (newStatus : VoiceConnectionStatus) (readyAt : Option Nat)
    (statusT : VoiceConnectionStatus) :
    (readyLock = false → (newStatus = .Connecting ∨ newStatus = .Signalling) →
      (entersWithin readyAt 20000 = true →
        handleConnectingOrSignalling readyLock newStatus readyAt statusT =
          (true, false, [])) ∧
      (entersWithin readyAt 20000 = false → statusT ≠ .Destroyed →
        handleConnectingOrSignalling readyLock newStatus readyAt statusT =
          (true, false, [.destroy])) ∧
      (entersWithin readyAt 20000 = false → statusT = .Destroyed →
        handleConnectingOrSignalling readyLock newStatus readyAt statusT =
          (true, false, []))) ∧
    (readyLock = true →
      handleConnectingOrSignalling readyLock newStatus readyAt statusT =
        (false, true, [])) := by
  constructor
  · intro hl hcs
    refine ⟨?_, ?_, ?_⟩
    · intro hr
      unfold handleConnectingOrSignalling
      rw [if_pos ⟨hl, hcs⟩, if_pos hr]
    · intro hr hd
      unfold handleConnectingOrSignalling
      rw [if_pos ⟨hl, hcs⟩, if_neg (by simp [hr]), if_neg hd]
    · intro hr hd
      unfold handleConnectingOrSignalling
      rw [if_pos ⟨hl, hcs⟩, if_neg (by simp [hr]), if_pos hd]
  · intro hl
    unfold handleConnectingOrSignalling
    rw [if_neg (by simp [hl]), hl]

/-- Witness for C8: with no guard a Connecting transition that never sees
Ready destroys (bound started, guard released); with the guard active a
repeated Signalling transition does nothing. -/
theorem claim_C8_ready_guard_witness :
    entersWithin none 20000 = false ∧
    handleConnectingOrSignalling false .Connecting none .Disconnected =
      (true, false, [.destroy]) ∧
    handleConnectingOrSignalling true .Signalling none .Disconnected =
      (false, true, []) :=
  ⟨by decide,
    ((claim_C8_ready_guard false .Connecting none .Disconnected).1 rfl
      (Or.inl rfl)).2.1 (by decide) (by decide),
    (claim_C8_ready_guard true .Signalling none .Disconnected).2 rfl⟩

/-- Counterexample to claim C9 as stated: the handler emits `songStarted`
whenever the NEW state is Playing, even when the OLD state was already
Playing (a Playing → Playing state change, e.g. `play()` called while
already playing, replacing the resource) — which is not a transition
into the playing state. -/
theorem claim_C9_counterexample :
    (audioPlayerStateChange ⟨.Playing, some exResource1⟩
        ⟨.Playing, some exResource2⟩).1 =
      [.songStarted (some 2) (some 102)] ∧
    (⟨.Playing, some exResource1⟩ : AudioPlayerState).status = .Playing := by
  decide

/-- Claim C9 (amended): `songStarted` is emitted exactly when the new
player state is Playing (including a Playing → Playing re-entry),
carrying the new resource's request context and metadata; `songEnded` is
emitted exactly when the state moves from a non-idle state to Idle,
carrying the consumed (old) resource's request context and metadata
untouched; and the handler re-invokes the queue drain exactly on that
transition to idle. -/
theorem claim_C9_player_events (oldS newS : AudioPlayerState) :
    ((∃ a b, SessionEvent.songStarted a b ∈ (audioPlayerStateChange oldS newS).1) ↔
      newS.status = .Playing) ∧
    (newS.status = .Playing →
      SessionEvent.songStarted (newS.resource.map (·.reference))
        (newS.resource.map (·.details)) ∈ (audioPlayerStateChange oldS newS).1) ∧
    ((∃ a b, SessionEvent.songEnded a b ∈ (audioPlayerStateChange oldS newS).1) ↔
      (newS.status = .Idle ∧ oldS.status ≠ .Idle)) ∧
    (newS.status = .Idle → oldS.status ≠ .Idle →
      SessionEvent.songEnded (oldS.resource.map (·.reference))
        (oldS.resource.map (·.details)) ∈ (audioPlayerStateChange oldS newS).1) ∧
    ((audioPlayerStateChange oldS newS).2 = true ↔
      (newS.status = .Idle ∧ oldS.status ≠ .Idle)) := by
  unfold audioPlayerStateChange
  by_cases h1 : newS.status = .Idle ∧ oldS.status ≠ .Idle
  · rw [if_pos h1]
    obtain ⟨ha, hb⟩ := h1
    simp [ha, hb]
  · rw [if_neg h1]
    by_cases h2 : newS.status = .Playing
    · rw [if_pos h2]
      simp [h2, h1]
    · rw [if_neg h2]
      simp [h2, h1]
      intro hni
      by_contra hc
      exact h1 ⟨hni, hc⟩

/-- Witness for C9 (amended): a natural completion Playing → Idle emits
`songEnded` with the old resource's context and re-invokes the drain. -/
theorem claim_C9_player_events_witness :
    ((⟨.Idle, none⟩ : AudioPlayerState).status = .Idle) ∧
    SessionEvent.songEnded (some 1) (some 101) ∈
      (audioPlayerStateChange ⟨.Playing, some exResource1⟩ ⟨.Idle, none⟩).1 ∧
    (audioPlayerStateChange ⟨.Playing, some exResource1⟩ ⟨.Idle, none⟩).2 = true :=
  ⟨rfl,
    (claim_C9_player_events ⟨.Playing, some exResource1⟩ ⟨.Idle, none⟩).2.2.2.1
      rfl (by decide),
    ((claim_C9_player_events ⟨.Playing, some exResource1⟩ ⟨.Idle, none⟩).2.2.2.2).2
      ⟨rfl, by decide⟩⟩

/-- Claim C10: for every nonnegative integer number of seconds s,
`durationWrapper s` has flatMinutes = ⌊s / 60⌋ and
seconds = s − 60 × flatMinutes, so flatMinutes × 60 + seconds = s and
seconds < 60, and its timestamp is the flat minutes and the leftover
seconds joined by a colon with no zero-padding of the seconds part —
65 seconds yields "1:5", not "1:05". -/
theorem claim_C10_durationWrapper (s : Nat) :
    (durationWrapper s).flatMinutes = s / 60 ∧
    (durationWrapper s).seconds = s - 60 * (durationWrapper s).flatMinutes ∧
    (durationWrapper s).flatMinutes * 60 + (durationWrapper s).seconds = s ∧
    (durationWrapper s).seconds < 60 ∧
    (durationWrapper s).timestamp =
      toString (durationWrapper s).flatMinutes ++ ":" ++
        toString (durationWrapper s).seconds ∧
    (durationWrapper 65).timestamp = "1:5" := by
  have hflat : (durationWrapper s).flatMinutes = s / 60 := rfl
  have hsec : (durationWrapper s).seconds = s - s / 60 * 60 := rfl
  refine ⟨rfl, ?_, ?_, ?_, rfl, by decide⟩
  · rw [hsec, hflat]
    omega
  · rw [hsec, hflat]
    omega
  · rw [hsec]
    omega

end MusicModule
